import Mathlib

/-!
Shallow embedding of the two headers of `binder_ndk_sys`:

* `src/binder_ndk_sys/src/types_workaround.h` — a preprocessor shim that
  supplies fallback typedefs for `size_t`, `ssize_t`, `uint32_t`, `int32_t`,
  guarded by the macros `TYPES_WORKAROUND_H`, `_SIZE_T_DEFINED` and `_STDINT_H`.
* `src/binder_ndk_sys/src/wrapper.h` — an inclusion-order wrapper that includes
  the standard headers `stddef.h`, `stdbool.h`, `stdint.h`, `sys/types.h` and then
  the vendor header `BinderBindings.hpp`.

The embedding tracks, per translation unit, which of the three guard macros are
defined and the list of typedef definitions emitted so far for each of the four
type names.  A typedef definition is abstracted to its width in bits and its
signedness, which is the criterion the spec uses for a conflicting definition.
Processing a piece of header text is a function `PPState → Option PPState`;
`none` models a fatal compile-time error (a conflicting redefinition, or the
vendor header referring to a type name that has no definition).
-/

/-- A single C typedef definition, abstracted to the width in bits of the
aliased integer type and its signedness (`signed = true` for a signed type). -/
structure TypeDef where
  width : Nat
  signed : Bool
deriving DecidableEq, Repr

/-- The preprocessor / translation-unit state tracked by the embedding:
whether each guard macro (`TYPES_WORKAROUND_H`, `_SIZE_T_DEFINED`, `_STDINT_H`)
is currently defined, and the list of typedef definitions emitted so far for
each of the four type names the shim and the vendor header are concerned with. -/
structure PPState where
  twGuard : Bool
  sizeTGuard : Bool
  stdintGuard : Bool
  size_t_defs : List TypeDef
  ssize_t_defs : List TypeDef
  uint32_t_defs : List TypeDef
  int32_t_defs : List TypeDef
deriving DecidableEq, Repr

/-- The translation-unit state before any header has been processed:
no guard macro defined, no typedef emitted. -/
def initState : PPState :=
  { twGuard := false, sizeTGuard := false, stdintGuard := false,
    size_t_defs := [], ssize_t_defs := [], uint32_t_defs := [], int32_t_defs := [] }

/-- Emitting a typedef for a name whose existing definitions are `defs`:
redeclaring a typedef with an identical type is legal, so the new definition is
appended when every existing definition agrees with it; a disagreeing existing
definition is a fatal redefinition error (`none`). -/
def addTypedef (defs : List TypeDef) (d : TypeDef) : Option (List TypeDef) :=
  if ∀ e ∈ defs, e = d then some (defs ++ [d]) else none

/-- The definition of `size_t` emitted for a target of the given pointer width:
`typedef unsigned long size_t;` under `__LP64__` (64-bit unsigned), else
`typedef unsigned int size_t;` (32-bit unsigned)
(types_workaround.h lines 9–15). -/
def sizeTDef (lp64 : Bool) : TypeDef :=
  { width := if lp64 then 64 else 32, signed := false }

/-- The definition of `ssize_t` emitted for a target of the given pointer
width: `typedef long ssize_t;` under `__LP64__` (64-bit signed), else
`typedef int ssize_t;` (32-bit signed) (types_workaround.h lines 9–15). -/
def ssizeTDef (lp64 : Bool) : TypeDef :=
  { width := if lp64 then 64 else 32, signed := true }

/-- The definition `typedef unsigned int uint32_t;` (types_workaround.h line 19):
a fixed 32-bit unsigned alias. -/
def uint32Def : TypeDef := { width := 32, signed := false }

/-- The definition `typedef int int32_t;` (types_workaround.h line 20):
a fixed 32-bit signed alias. -/
def int32Def : TypeDef := { width := 32, signed := true }

/-- The first guarded block of types_workaround.h (lines 7–16): when
`_SIZE_T_DEFINED` is not defined, define it and emit the `size_t` and
`ssize_t` typedefs for the target pointer width; otherwise do nothing. -/
def sizeBlock (lp64 : Bool) (s : PPState) : Option PPState :=
  if s.sizeTGuard then some s
  else
    match addTypedef s.size_t_defs (sizeTDef lp64),
          addTypedef s.ssize_t_defs (ssizeTDef lp64) with
    | some sz, some ssz =>
        some { s with sizeTGuard := true, size_t_defs := sz, ssize_t_defs := ssz }
    | _, _ => none

/-- The second guarded block of types_workaround.h (lines 18–21): when
`_STDINT_H` is not defined, emit the `uint32_t` and `int32_t` typedefs.
Note that this block never defines the macro `_STDINT_H` itself. -/
def stdintBlock (s : PPState) : Option PPState :=
  if s.stdintGuard then some s
  else
    match addTypedef s.uint32_t_defs uint32Def,
          addTypedef s.int32_t_defs int32Def with
    | some u, some i =>
        some { s with uint32_t_defs := u, int32_t_defs := i }
    | _, _ => none

/-- Processing types_workaround.h in a translation unit targeting the given
pointer width: the whole file is wrapped in the double-inclusion guard
`TYPES_WORKAROUND_H` (lines 1–2, 23); inside it the two guarded typedef
blocks run in order. -/
def processTypesWorkaround (lp64 : Bool) (s : PPState) : Option PPState :=
  if s.twGuard then some s
  else
    match sizeBlock lp64 { s with twGuard := true } with
    | none => none
    | some s2 => stdintBlock s2

/-- Modelled from the spec: the host's `stddef.h` (not part of this
repository) defines `size_t` with the width matching the target's pointer
size convention, together with its guard macro `_SIZE_T_DEFINED`, and does
nothing when that guard macro is already defined. -/
def processStddef (lp64 : Bool) (s : PPState) : Option PPState :=
  if s.sizeTGuard then some s
  else
    match addTypedef s.size_t_defs (sizeTDef lp64) with
    | some sz => some { s with sizeTGuard := true, size_t_defs := sz }
    | none => none

/-- Modelled from the spec: the host's `stdbool.h` (not part of this
repository) defines none of the four tracked type names and no tracked
guard macro. -/
def processStdbool (s : PPState) : Option PPState := some s

/-- Modelled from the spec: the host's `stdint.h` (not part of this
repository) defines the fixed 32-bit aliases `uint32_t` and `int32_t`
together with its guard macro `_STDINT_H`, and does nothing when that guard
macro is already defined. -/
def processStdint (s : PPState) : Option PPState :=
  if s.stdintGuard then some s
  else
    match addTypedef s.uint32_t_defs uint32Def,
          addTypedef s.int32_t_defs int32Def with
    | some u, some i =>
        some { s with stdintGuard := true, uint32_t_defs := u, int32_t_defs := i }
    | _, _ => none

/-- Modelled from the spec: the host's POSIX `sys/types.h` (not part of this
repository) defines `ssize_t` with the width matching the target's pointer
size convention when it is not yet defined, under its own internal guard. -/
def processSysTypes (lp64 : Bool) (s : PPState) : Option PPState :=
  if s.ssize_t_defs = [] then some { s with ssize_t_defs := [ssizeTDef lp64] }
  else some s

/-- Modelled from the spec: the vendor header `BinderBindings.hpp` (external,
not under src/) depends on the primitive type names `size_t`, `ssize_t`,
`uint32_t` and `int32_t`: parsing it fails when any of them has no definition,
and it defines none of them and no tracked guard macro itself. -/
def processBinderBindings (s : PPState) : Option PPState :=
  if s.size_t_defs ≠ [] ∧ s.ssize_t_defs ≠ [] ∧
     s.uint32_t_defs ≠ [] ∧ s.int32_t_defs ≠ [] then some s
  else none

/-- A host environment seen by the binding generator: which of the four
standard headers included by wrapper.h are available, and the target's
pointer-width condition `__LP64__`. -/
structure Host where
  hasStddef : Bool
  hasStdbool : Bool
  hasStdint : Bool
  hasSysTypes : Bool
  lp64 : Bool
deriving DecidableEq, Repr

/-- Modelled from the spec: an `include` of a standard header that the host
environment does not provide contributes nothing to the tracked state (the
generator's preprocessor simply lacks that header's definitions); an
available header is processed normally. -/
def includeIf (avail : Bool) (f : PPState → Option PPState) (s : PPState) :
    Option PPState :=
  if avail then f s else some s

/-- The file names that wrapper.h includes, in the order they appear in the
source (wrapper.h lines 6–12). -/
def wrapperIncludes : List String :=
  ["stddef.h", "stdbool.h", "stdint.h", "sys/types.h", "BinderBindings.hpp"]

/-- The prelude of wrapper.h (lines 6–9): the four standard-header inclusions
`stddef.h`, `stdbool.h`, `stdint.h`, `sys/types.h`, in source order, each a
no-op when the host does not provide it. -/
def processWrapperPrelude (h : Host) (s : PPState) : Option PPState :=
  match includeIf h.hasStddef (processStddef h.lp64) s with
  | none => none
  | some s1 =>
    match includeIf h.hasStdbool processStdbool s1 with
    | none => none
    | some s2 =>
      match includeIf h.hasStdint processStdint s2 with
      | none => none
      | some s3 => includeIf h.hasSysTypes (processSysTypes h.lp64) s3

/-- Processing wrapper.h (lines 1–12): the four standard-header inclusions,
then the inclusion of the vendor header `BinderBindings.hpp`; wrapper.h
contains nothing else and defines no guard macro of its own. -/
def processWrapper (h : Host) (s : PPState) : Option PPState :=
  match processWrapperPrelude h s with
  | none => none
  | some s4 => processBinderBindings s4

/-- Guard macros faithfully reflect the defined names, pairwise:
`_SIZE_T_DEFINED` is defined exactly when `size_t` is and exactly when
`ssize_t` is; `_STDINT_H` is defined exactly when `uint32_t` is and exactly
when `int32_t` is.  This is the state left by processing any subset of the
standard headers, each of which defines its names together with its guard. -/
def GuardsFaithful (s : PPState) : Prop :=
  (s.sizeTGuard = true ↔ s.size_t_defs ≠ []) ∧
  (s.sizeTGuard = true ↔ s.ssize_t_defs ≠ []) ∧
  (s.stdintGuard = true ↔ s.uint32_t_defs ≠ []) ∧
  (s.stdintGuard = true ↔ s.int32_t_defs ≠ [])

/-- Guard macros reflect which of the four names have any definition at all:
`_SIZE_T_DEFINED` is defined exactly when `size_t` or `ssize_t` has a
definition, and `_STDINT_H` exactly when `uint32_t` or `int32_t` has one. -/
def GuardsReflect (s : PPState) : Prop :=
  (s.sizeTGuard = true ↔ (s.size_t_defs ≠ [] ∨ s.ssize_t_defs ≠ [])) ∧
  (s.stdintGuard = true ↔ (s.uint32_t_defs ≠ [] ∨ s.int32_t_defs ≠ []))

/-- Some name among the four is already defined with a type differing in
width or signedness from the one the shim would emit for it, while the guard
macro of the block that would emit it is not defined. -/
def MismatchedDef (lp64 : Bool) (s : PPState) : Prop :=
  (s.sizeTGuard = false ∧
    ((∃ d ∈ s.size_t_defs, d ≠ sizeTDef lp64) ∨
     (∃ d ∈ s.ssize_t_defs, d ≠ ssizeTDef lp64))) ∨
  (s.stdintGuard = false ∧
    ((∃ d ∈ s.uint32_t_defs, d ≠ uint32Def) ∨
     (∃ d ∈ s.int32_t_defs, d ≠ int32Def)))

instance (lp64 : Bool) (s : PPState) : Decidable (MismatchedDef lp64 s) := by
  unfold MismatchedDef; infer_instance

instance (s : PPState) : Decidable (GuardsFaithful s) := by
  unfold GuardsFaithful; infer_instance

instance (s : PPState) : Decidable (GuardsReflect s) := by
  unfold GuardsReflect; infer_instance

theorem addTypedef_eq_some {l l2 : List TypeDef} {d : TypeDef}
    (h : addTypedef l d = some l2) : l2 = l ++ [d] := by
  unfold addTypedef at h
  split at h
  · exact (Option.some.inj h).symm
  · simp at h

theorem addTypedef_nil (d : TypeDef) : addTypedef [] d = some [d] := by
  simp [addTypedef]

theorem addTypedef_none {l : List TypeDef} {d e : TypeDef}
    (he : e ∈ l) (hne : e ≠ d) : addTypedef l d = none := by
  unfold addTypedef
  rw [if_neg]
  intro hall
  exact hne (hall e he)

theorem sizeBlock_of_guard {lp : Bool} {s : PPState} (hg : s.sizeTGuard = true) :
    sizeBlock lp s = some s := by
  simp [sizeBlock, hg]

theorem sizeBlock_of_not_guard {lp : Bool} {s t : PPState} (hg : s.sizeTGuard = false)
    (h : sizeBlock lp s = some t) :
    t = { s with sizeTGuard := true,
                 size_t_defs := s.size_t_defs ++ [sizeTDef lp],
                 ssize_t_defs := s.ssize_t_defs ++ [ssizeTDef lp] } := by
  unfold sizeBlock at h
  rw [hg] at h
  simp only [Bool.false_eq_true, if_false] at h
  rcases ha : addTypedef s.size_t_defs (sizeTDef lp) with _ | sz <;> rw [ha] at h
  · simp at h
  · rcases hb : addTypedef s.ssize_t_defs (ssizeTDef lp) with _ | ssz <;> rw [hb] at h
    · simp at h
    · rw [addTypedef_eq_some ha, addTypedef_eq_some hb] at h
      exact (Option.some.inj h).symm

theorem sizeBlock_some_fields {lp : Bool} {s t : PPState} (h : sizeBlock lp s = some t) :
    t.sizeTGuard = true ∧ t.twGuard = s.twGuard ∧ t.stdintGuard = s.stdintGuard ∧
    t.uint32_t_defs = s.uint32_t_defs ∧ t.int32_t_defs = s.int32_t_defs := by
  cases hg : s.sizeTGuard
  · rw [sizeBlock_of_not_guard hg h]
    exact ⟨rfl, rfl, rfl, rfl, rfl⟩
  · rw [sizeBlock_of_guard hg] at h
    cases Option.some.inj h
    exact ⟨hg, rfl, rfl, rfl, rfl⟩

theorem stdintBlock_of_guard {s : PPState} (hg : s.stdintGuard = true) :
    stdintBlock s = some s := by
  simp [stdintBlock, hg]

theorem stdintBlock_of_not_guard {s t : PPState} (hg : s.stdintGuard = false)
    (h : stdintBlock s = some t) :
    t = { s with uint32_t_defs := s.uint32_t_defs ++ [uint32Def],
                 int32_t_defs := s.int32_t_defs ++ [int32Def] } := by
  unfold stdintBlock at h
  rw [if_neg (by simp [hg])] at h
  rcases ha : addTypedef s.uint32_t_defs uint32Def with _ | u <;> rw [ha] at h
  · simp at h
  · rcases hb : addTypedef s.int32_t_defs int32Def with _ | i <;> rw [hb] at h
    · simp at h
    · rw [addTypedef_eq_some ha, addTypedef_eq_some hb] at h
      exact (Option.some.inj h).symm

theorem stdintBlock_some_fields {s t : PPState} (h : stdintBlock s = some t) :
    t.twGuard = s.twGuard ∧ t.sizeTGuard = s.sizeTGuard ∧ t.stdintGuard = s.stdintGuard ∧
    t.size_t_defs = s.size_t_defs ∧ t.ssize_t_defs = s.ssize_t_defs := by
  cases hg : s.stdintGuard
  · rw [stdintBlock_of_not_guard hg h]
    exact ⟨rfl, rfl, hg, rfl, rfl⟩
  · rw [stdintBlock_of_guard hg] at h
    cases Option.some.inj h
    exact ⟨rfl, rfl, hg, rfl, rfl⟩

theorem ptw_of_guard {lp : Bool} {s : PPState} (h : s.twGuard = true) :
    processTypesWorkaround lp s = some s := by
  simp [processTypesWorkaround, h]

theorem ptw_of_not_guard {lp : Bool} {s : PPState} (h : s.twGuard = false) :
    processTypesWorkaround lp s =
      match sizeBlock lp { s with twGuard := true } with
      | none => none
      | some s2 => stdintBlock s2 := by
  simp [processTypesWorkaround, h]

/-- Claim C4: when the shim's guard macros are initially undefined, the types
it defines have the specified widths: under the pointer-width condition
`__LP64__`, `size_t` is a 64-bit unsigned alias and `ssize_t` a 64-bit signed
one, otherwise both are 32-bit, and `uint32_t` / `int32_t` are fixed 32-bit
unsigned / signed aliases regardless of the pointer-width condition. -/
theorem shim_typedef_widths (lp64 : Bool) (s t : PPState)
    (htw : s.twGuard = false) (hsz : s.sizeTGuard = false) (hsi : s.stdintGuard = false)
    (h : processTypesWorkaround lp64 s = some t) :
    t.size_t_defs = s.size_t_defs ++ [{ width := if lp64 then 64 else 32, signed := false }] ∧
    t.ssize_t_defs = s.ssize_t_defs ++ [{ width := if lp64 then 64 else 32, signed := true }] ∧
    t.uint32_t_defs = s.uint32_t_defs ++ [{ width := 32, signed := false }] ∧
    t.int32_t_defs = s.int32_t_defs ++ [{ width := 32, signed := true }] := by
  rw [ptw_of_not_guard htw] at h
  rcases hsb : sizeBlock lp64 { s with twGuard := true } with _ | s2 <;> rw [hsb] at h
  · simp at h
  · simp only [] at h
    have e2 := @sizeBlock_of_not_guard lp64 { s with twGuard := true } s2 hsz hsb
    have hg2 : s2.stdintGuard = false := by rw [e2]; exact hsi
    have e3 := stdintBlock_of_not_guard hg2 h
    rw [e3, e2]
    exact ⟨rfl, rfl, rfl, rfl⟩

/-- Witness for `shim_typedef_widths` at the 64-bit target and the empty
initial state. -/
theorem shim_typedef_widths_witness :
    (processTypesWorkaround true initState =
      some { twGuard := true, sizeTGuard := true, stdintGuard := false,
             size_t_defs := [{ width := 64, signed := false }],
             ssize_t_defs := [{ width := 64, signed := true }],
             uint32_t_defs := [{ width := 32, signed := false }],
             int32_t_defs := [{ width := 32, signed := true }] }) ∧
    ({ twGuard := true, sizeTGuard := true, stdintGuard := false,
       size_t_defs := [{ width := 64, signed := false }],
       ssize_t_defs := [{ width := 64, signed := true }],
       uint32_t_defs := [{ width := 32, signed := false }],
       int32_t_defs := [{ width := 32, signed := true }] } : PPState).size_t_defs =
      initState.size_t_defs ++ [{ width := if true then 64 else 32, signed := false }] := by
  refine ⟨by decide, ?_⟩
  exact (shim_typedef_widths true initState _ rfl rfl rfl (by decide)).1

/-- Claim C5: for every initial state in which a complete set of standard
headers has already been processed (`_SIZE_T_DEFINED` and `_STDINT_H` defined,
all four names defined), processing types_workaround.h leaves every
pre-existing definition unchanged and introduces no conflicting symbol: the
guard conditions suppress all four of the shim's typedefs. -/
theorem shim_suppressed_when_guards_defined (lp64 : Bool) (s : PPState)
    (h1 : s.sizeTGuard = true) (h2 : s.stdintGuard = true)
    (_h3 : s.size_t_defs ≠ []) (_h4 : s.ssize_t_defs ≠ [])
    (_h5 : s.uint32_t_defs ≠ []) (_h6 : s.int32_t_defs ≠ []) :
    ∃ t, processTypesWorkaround lp64 s = some t ∧
      t.size_t_defs = s.size_t_defs ∧ t.ssize_t_defs = s.ssize_t_defs ∧
      t.uint32_t_defs = s.uint32_t_defs ∧ t.int32_t_defs = s.int32_t_defs := by
  cases htw : s.twGuard
  · rw [ptw_of_not_guard htw]
    rw [@sizeBlock_of_guard lp64 { s with twGuard := true } h1]
    simp only []
    rw [@stdintBlock_of_guard { s with twGuard := true } h2]
    exact ⟨_, rfl, rfl, rfl, rfl, rfl⟩
  · rw [ptw_of_guard htw]
    exact ⟨s, rfl, rfl, rfl, rfl, rfl⟩

/-- Witness for `shim_suppressed_when_guards_defined` at a concrete state left
by a complete set of standard headers on a 64-bit target. -/
theorem shim_suppressed_when_guards_defined_witness :
    ∃ t, processTypesWorkaround true
        { twGuard := false, sizeTGuard := true, stdintGuard := true,
          size_t_defs := [{ width := 64, signed := false }],
          ssize_t_defs := [{ width := 64, signed := true }],
          uint32_t_defs := [{ width := 32, signed := false }],
          int32_t_defs := [{ width := 32, signed := true }] } = some t ∧
      t.size_t_defs = [{ width := 64, signed := false }] ∧
      t.ssize_t_defs = [{ width := 64, signed := true }] ∧
      t.uint32_t_defs = [{ width := 32, signed := false }] ∧
      t.int32_t_defs = [{ width := 32, signed := true }] :=
  shim_suppressed_when_guards_defined true
    { twGuard := false, sizeTGuard := true, stdintGuard := true,
      size_t_defs := [{ width := 64, signed := false }],
      ssize_t_defs := [{ width := 64, signed := true }],
      uint32_t_defs := [{ width := 32, signed := false }],
      int32_t_defs := [{ width := 32, signed := true }] }
    rfl rfl (by decide) (by decide) (by decide) (by decide)

/-- Claim C9: including types_workaround.h is idempotent: whenever a first
processing succeeds, processing it again from the resulting state yields
exactly that state, because the first pass defines `TYPES_WORKAROUND_H` and
the second pass is skipped entirely by that guard. -/
theorem shim_idempotent (lp64 : Bool) (s t : PPState)
    (h : processTypesWorkaround lp64 s = some t) :
    processTypesWorkaround lp64 t = some t := by
  cases htw : s.twGuard
  · rw [ptw_of_not_guard htw] at h
    rcases hsb : sizeBlock lp64 { s with twGuard := true } with _ | s2 <;> rw [hsb] at h
    · simp at h
    · simp only [] at h
      have h1 : s2.twGuard = true := (sizeBlock_some_fields hsb).2.1
      have h2 : t.twGuard = true := by
        rw [(stdintBlock_some_fields h).1]; exact h1
      exact ptw_of_guard h2
  · rw [ptw_of_guard htw] at h
    cases Option.some.inj h
    exact ptw_of_guard htw

/-- Witness for `shim_idempotent`: the state the shim produces from the empty
state on a 64-bit target is a fixed point of processing the shim. -/
theorem shim_idempotent_witness :
    processTypesWorkaround true
      { twGuard := true, sizeTGuard := true, stdintGuard := false,
        size_t_defs := [{ width := 64, signed := false }],
        ssize_t_defs := [{ width := 64, signed := true }],
        uint32_t_defs := [{ width := 32, signed := false }],
        int32_t_defs := [{ width := 32, signed := true }] } =
    some { twGuard := true, sizeTGuard := true, stdintGuard := false,
           size_t_defs := [{ width := 64, signed := false }],
           ssize_t_defs := [{ width := 64, signed := true }],
           uint32_t_defs := [{ width := 32, signed := false }],
           int32_t_defs := [{ width := 32, signed := true }] } :=
  shim_idempotent true initState _ (by decide)

/-- Claim C10, counterexample to the claim as stated: in the initial state in
which `TYPES_WORKAROUND_H` is already defined (and `_STDINT_H` is undefined,
as the claim requires), processing types_workaround.h terminates with
`_SIZE_T_DEFINED` still undefined, contradicting the claim that after
processing `_SIZE_T_DEFINED` is defined for every such initial state. -/
theorem shim_guard_asymmetry_cex :
    processTypesWorkaround true
      { twGuard := true, sizeTGuard := false, stdintGuard := false,
        size_t_defs := [], ssize_t_defs := [], uint32_t_defs := [], int32_t_defs := [] } =
    some { twGuard := true, sizeTGuard := false, stdintGuard := false,
           size_t_defs := [], ssize_t_defs := [], uint32_t_defs := [], int32_t_defs := [] } ∧
    ({ twGuard := true, sizeTGuard := false, stdintGuard := false,
       size_t_defs := [], ssize_t_defs := [], uint32_t_defs := [],
       int32_t_defs := [] } : PPState).sizeTGuard = false := by
  decide

/-- Claim C10 as amended: for every initial state in which `_STDINT_H` is
undefined and `TYPES_WORKAROUND_H` is not yet defined, after processing
types_workaround.h the macro `_STDINT_H` is still undefined (so a later
inclusion of a real stdint.h is not suppressed by the shim), while
`_SIZE_T_DEFINED` is defined: the shim's guard bookkeeping is asymmetric. -/
theorem shim_guard_asymmetry (lp64 : Bool) (s t : PPState)
    (hsi : s.stdintGuard = false) (htw : s.twGuard = false)
    (h : processTypesWorkaround lp64 s = some t) :
    t.stdintGuard = false ∧ t.sizeTGuard = true := by
  rw [ptw_of_not_guard htw] at h
  rcases hsb : sizeBlock lp64 { s with twGuard := true } with _ | s2 <;> rw [hsb] at h
  · simp at h
  · simp only [] at h
    have hf := sizeBlock_some_fields hsb
    have hf2 := stdintBlock_some_fields h
    refine ⟨?_, ?_⟩
    · rw [hf2.2.2.1, hf.2.2.1]; exact hsi
    · rw [hf2.2.1]; exact hf.1

/-- Witness for `shim_guard_asymmetry` at the empty initial state on a
64-bit target. -/
theorem shim_guard_asymmetry_witness :
    ({ twGuard := true, sizeTGuard := true, stdintGuard := false,
       size_t_defs := [{ width := 64, signed := false }],
       ssize_t_defs := [{ width := 64, signed := true }],
       uint32_t_defs := [{ width := 32, signed := false }],
       int32_t_defs := [{ width := 32, signed := true }] } : PPState).stdintGuard = false ∧
    ({ twGuard := true, sizeTGuard := true, stdintGuard := false,
       size_t_defs := [{ width := 64, signed := false }],
       ssize_t_defs := [{ width := 64, signed := true }],
       uint32_t_defs := [{ width := 32, signed := false }],
       int32_t_defs := [{ width := 32, signed := true }] } : PPState).sizeTGuard = true :=
  shim_guard_asymmetry true initState _ rfl rfl (by decide)

/-- Claim C3, counterexample to the claim as stated: the claim quantifies over
every initial state, but in the initial state in which `_STDINT_H` is defined
while `uint32_t` has no definition (a state the guards do not faithfully
describe), processing types_workaround.h succeeds and leaves `uint32_t`
undefined at the end, contradicting the claim that no name is left
undefined. -/
theorem shim_incoherent_guard_cex :
    processTypesWorkaround true
      { twGuard := false, sizeTGuard := false, stdintGuard := true,
        size_t_defs := [], ssize_t_defs := [], uint32_t_defs := [], int32_t_defs := [] } =
    some { twGuard := true, sizeTGuard := true, stdintGuard := true,
           size_t_defs := [{ width := 64, signed := false }],
           ssize_t_defs := [{ width := 64, signed := true }],
           uint32_t_defs := [], int32_t_defs := [] } ∧
    ({ twGuard := true, sizeTGuard := true, stdintGuard := true,
       size_t_defs := [{ width := 64, signed := false }],
       ssize_t_defs := [{ width := 64, signed := true }],
       uint32_t_defs := [], int32_t_defs := [] } : PPState).uint32_t_defs = [] := by
  decide

/-- Claim C3 as amended: for every initial state in which `TYPES_WORKAROUND_H`
is not yet defined and the guard macros faithfully reflect the defined names
(`_SIZE_T_DEFINED` defined exactly when `size_t` is and when `ssize_t` is,
`_STDINT_H` defined exactly when `uint32_t` is and when `int32_t` is — the
states left by processing a partial set of standard headers), processing the
shim succeeds, never adds a definition to an already-defined name, leaves all
four names defined at the end, and each name that had at most one definition
has exactly one definition at the end. -/
theorem shim_each_name_defined_once (lp64 : Bool) (s : PPState)
    (htw : s.twGuard = false) (hf : GuardsFaithful s) :
    ∃ t, processTypesWorkaround lp64 s = some t ∧
      (s.size_t_defs ≠ [] → t.size_t_defs = s.size_t_defs) ∧
      (s.ssize_t_defs ≠ [] → t.ssize_t_defs = s.ssize_t_defs) ∧
      (s.uint32_t_defs ≠ [] → t.uint32_t_defs = s.uint32_t_defs) ∧
      (s.int32_t_defs ≠ [] → t.int32_t_defs = s.int32_t_defs) ∧
      t.size_t_defs ≠ [] ∧ t.ssize_t_defs ≠ [] ∧
      t.uint32_t_defs ≠ [] ∧ t.int32_t_defs ≠ [] ∧
      (s.size_t_defs.length ≤ 1 → t.size_t_defs.length = 1) ∧
      (s.ssize_t_defs.length ≤ 1 → t.ssize_t_defs.length = 1) ∧
      (s.uint32_t_defs.length ≤ 1 → t.uint32_t_defs.length = 1) ∧
      (s.int32_t_defs.length ≤ 1 → t.int32_t_defs.length = 1) := by
  obtain ⟨f1, f2, f3, f4⟩ := hf
  rw [ptw_of_not_guard htw]
  have hone : ∀ l : List TypeDef, l ≠ [] → l.length ≤ 1 → l.length = 1 := by
    intro l hne hle
    have := List.length_pos.mpr hne
    omega
  rcases Bool.eq_false_or_eq_true s.sizeTGuard with hsz | hsz
  · have e1 : s.size_t_defs ≠ [] := f1.mp hsz
    have e2 : s.ssize_t_defs ≠ [] := f2.mp hsz
    have hsb : sizeBlock lp64 { s with twGuard := true } = some { s with twGuard := true } :=
      sizeBlock_of_guard hsz
    rw [hsb]
    simp only []
    rcases Bool.eq_false_or_eq_true s.stdintGuard with hsi | hsi
    · have e3 : s.uint32_t_defs ≠ [] := f3.mp hsi
      have e4 : s.int32_t_defs ≠ [] := f4.mp hsi
      have hib : stdintBlock { s with twGuard := true } = some { s with twGuard := true } :=
        stdintBlock_of_guard hsi
      rw [hib]
      refine ⟨_, rfl, fun _ => rfl, fun _ => rfl, fun _ => rfl, fun _ => rfl,
        e1, e2, e3, e4,
        fun hle => hone _ e1 hle, fun hle => hone _ e2 hle,
        fun hle => hone _ e3 hle, fun hle => hone _ e4 hle⟩
    · have e3 : s.uint32_t_defs = [] := by
        by_contra hc
        rw [f3.mpr hc] at hsi
        cases hsi
      have e4 : s.int32_t_defs = [] := by
        by_contra hc
        rw [f4.mpr hc] at hsi
        cases hsi
      have hib : stdintBlock { s with twGuard := true } =
          some { s with twGuard := true,
                        uint32_t_defs := [uint32Def], int32_t_defs := [int32Def] } := by
        unfold stdintBlock
        rw [if_neg (by simp [hsi])]
        simp only []
        rw [e3, e4, addTypedef_nil, addTypedef_nil]
      rw [hib]
      refine ⟨_, rfl, fun _ => rfl, fun _ => rfl,
        fun hc => absurd e3 hc, fun hc => absurd e4 hc,
        e1, e2, by simp, by simp,
        fun hle => hone _ e1 hle, fun hle => hone _ e2 hle,
        fun _ => by simp, fun _ => by simp⟩
  · have e1 : s.size_t_defs = [] := by
      by_contra hc
      rw [f1.mpr hc] at hsz
      cases hsz
    have e2 : s.ssize_t_defs = [] := by
      by_contra hc
      rw [f2.mpr hc] at hsz
      cases hsz
    have hsb : sizeBlock lp64 { s with twGuard := true } =
        some { s with twGuard := true, sizeTGuard := true,
                      size_t_defs := [sizeTDef lp64], ssize_t_defs := [ssizeTDef lp64] } := by
      unfold sizeBlock
      rw [if_neg (by simp [hsz])]
      rw [e1, e2, addTypedef_nil, addTypedef_nil]
    rw [hsb]
    simp only []
    rcases Bool.eq_false_or_eq_true s.stdintGuard with hsi | hsi
    · have e3 : s.uint32_t_defs ≠ [] := f3.mp hsi
      have e4 : s.int32_t_defs ≠ [] := f4.mp hsi
      have hib : stdintBlock
          { s with twGuard := true, sizeTGuard := true,
                   size_t_defs := [sizeTDef lp64], ssize_t_defs := [ssizeTDef lp64] } =
          some { s with twGuard := true, sizeTGuard := true,
                        size_t_defs := [sizeTDef lp64], ssize_t_defs := [ssizeTDef lp64] } :=
        stdintBlock_of_guard hsi
      rw [hib]
      refine ⟨_, rfl, fun hc => absurd e1 hc, fun hc => absurd e2 hc,
        fun _ => rfl, fun _ => rfl,
        by simp, by simp, e3, e4, fun _ => by simp, fun _ => by simp,
        fun hle => hone _ e3 hle, fun hle => hone _ e4 hle⟩
    · have e3 : s.uint32_t_defs = [] := by
        by_contra hc
        rw [f3.mpr hc] at hsi
        cases hsi
      have e4 : s.int32_t_defs = [] := by
        by_contra hc
        rw [f4.mpr hc] at hsi
        cases hsi
      have hib : stdintBlock
          { s with twGuard := true, sizeTGuard := true,
                   size_t_defs := [sizeTDef lp64], ssize_t_defs := [ssizeTDef lp64] } =
          some { s with twGuard := true, sizeTGuard := true,
                        size_t_defs := [sizeTDef lp64], ssize_t_defs := [ssizeTDef lp64],
                        uint32_t_defs := [uint32Def], int32_t_defs := [int32Def] } := by
        unfold stdintBlock
        rw [if_neg (by simp [hsi])]
        simp only []
        rw [e3, e4, addTypedef_nil, addTypedef_nil]
      rw [hib]
      refine ⟨_, rfl, fun hc => absurd e1 hc, fun hc => absurd e2 hc,
        fun hc => absurd e3 hc, fun hc => absurd e4 hc,
        by simp, by simp, by simp, by simp, fun _ => by simp, fun _ => by simp,
        fun _ => by simp, fun _ => by simp⟩

/-- Witness for `shim_each_name_defined_once` at the state left by a real
stdint.h alone (a partial set of standard headers) on a 64-bit target. -/
theorem shim_each_name_defined_once_witness :
    ∃ t, processTypesWorkaround true
        { twGuard := false, sizeTGuard := false, stdintGuard := true,
          size_t_defs := [], ssize_t_defs := [],
          uint32_t_defs := [{ width := 32, signed := false }],
          int32_t_defs := [{ width := 32, signed := true }] } = some t ∧
      (([] : List TypeDef) ≠ [] → t.size_t_defs = []) ∧
      (([] : List TypeDef) ≠ [] → t.ssize_t_defs = []) ∧
      ([{ width := 32, signed := false }] ≠ ([] : List TypeDef) →
        t.uint32_t_defs = [{ width := 32, signed := false }]) ∧
      ([{ width := 32, signed := true }] ≠ ([] : List TypeDef) →
        t.int32_t_defs = [{ width := 32, signed := true }]) ∧
      t.size_t_defs ≠ [] ∧ t.ssize_t_defs ≠ [] ∧
      t.uint32_t_defs ≠ [] ∧ t.int32_t_defs ≠ [] ∧
      (([] : List TypeDef).length ≤ 1 → t.size_t_defs.length = 1) ∧
      (([] : List TypeDef).length ≤ 1 → t.ssize_t_defs.length = 1) ∧
      (([{ width := 32, signed := false }] : List TypeDef).length ≤ 1 →
        t.uint32_t_defs.length = 1) ∧
      (([{ width := 32, signed := true }] : List TypeDef).length ≤ 1 →
        t.int32_t_defs.length = 1) :=
  shim_each_name_defined_once true
    { twGuard := false, sizeTGuard := false, stdintGuard := true,
      size_t_defs := [], ssize_t_defs := [],
      uint32_t_defs := [{ width := 32, signed := false }],
      int32_t_defs := [{ width := 32, signed := true }] }
    rfl (by decide)

theorem sizeBlock_total {lp : Bool} {s : PPState}
    (h : s.sizeTGuard = true ∨ (s.size_t_defs = [] ∧ s.ssize_t_defs = [])) :
    ∃ t, sizeBlock lp s = some t := by
  rcases Bool.eq_false_or_eq_true s.sizeTGuard with hg | hg
  · exact ⟨s, sizeBlock_of_guard hg⟩
  · rcases h with hg2 | ⟨h1, h2⟩
    · exact absurd hg2 (by simp [hg])
    · refine ⟨{ s with sizeTGuard := true, size_t_defs := [sizeTDef lp],
                       ssize_t_defs := [ssizeTDef lp] }, ?_⟩
      unfold sizeBlock
      rw [if_neg (by simp [hg])]
      rw [h1, h2, addTypedef_nil, addTypedef_nil]

theorem stdintBlock_total {s : PPState}
    (h : s.stdintGuard = true ∨ (s.uint32_t_defs = [] ∧ s.int32_t_defs = [])) :
    ∃ t, stdintBlock s = some t := by
  rcases Bool.eq_false_or_eq_true s.stdintGuard with hg | hg
  · exact ⟨s, stdintBlock_of_guard hg⟩
  · rcases h with hg2 | ⟨h1, h2⟩
    · exact absurd hg2 (by simp [hg])
    · refine ⟨{ s with uint32_t_defs := [uint32Def], int32_t_defs := [int32Def] }, ?_⟩
      unfold stdintBlock
      rw [if_neg (by simp [hg])]
      rw [h1, h2, addTypedef_nil, addTypedef_nil]

/-- Claim C7, counterexample to the claim as stated: in the initial state in
which `TYPES_WORKAROUND_H` is already defined, `size_t` is already defined as
a 16-bit signed type (differing from the shim's type) and `_SIZE_T_DEFINED`
is not defined, the claim asserts a redefinition error, yet processing
types_workaround.h succeeds (its double-inclusion guard skips the whole
file). -/
theorem shim_mismatch_no_error_cex :
    MismatchedDef true
      { twGuard := true, sizeTGuard := false, stdintGuard := false,
        size_t_defs := [{ width := 16, signed := true }],
        ssize_t_defs := [], uint32_t_defs := [], int32_t_defs := [] } ∧
    processTypesWorkaround true
      { twGuard := true, sizeTGuard := false, stdintGuard := false,
        size_t_defs := [{ width := 16, signed := true }],
        ssize_t_defs := [], uint32_t_defs := [], int32_t_defs := [] } =
    some { twGuard := true, sizeTGuard := false, stdintGuard := false,
           size_t_defs := [{ width := 16, signed := true }],
           ssize_t_defs := [], uint32_t_defs := [], int32_t_defs := [] } := by
  constructor
  · exact Or.inl ⟨rfl, Or.inl ⟨{ width := 16, signed := true }, by decide, by decide⟩⟩
  · decide

/-- Claim C7 as amended: a compile-time error arises from the shim exactly
when its guard condition disagrees with the actual prior-definition state,
provided `TYPES_WORKAROUND_H` is not yet defined: if some name is already
defined with a different width or signedness while the guard macro of the
block covering it is undefined, processing types_workaround.h produces a
redefinition error; conversely, when the guard macros faithfully reflect
which names are already defined, processing the shim produces no error. -/
theorem shim_error_iff_guard_mismatch (lp64 : Bool) (s : PPState) :
    (s.twGuard = false → MismatchedDef lp64 s →
      processTypesWorkaround lp64 s = none) ∧
    (GuardsReflect s → ∃ t, processTypesWorkaround lp64 s = some t) := by
  constructor
  · intro htw hm
    rw [ptw_of_not_guard htw]
    rcases hm with ⟨hg, hbad⟩ | ⟨hg, hbad⟩
    · have hsb : sizeBlock lp64 { s with twGuard := true } = none := by
        unfold sizeBlock
        rw [if_neg (by simp [hg])]
        rcases hbad with ⟨d, hd, hne⟩ | ⟨d, hd, hne⟩
        · rw [addTypedef_none hd hne]
        · rw [addTypedef_none hd hne]
          rcases ha : addTypedef s.size_t_defs (sizeTDef lp64) with _ | sz <;> rfl
      rw [hsb]
    · rcases hsb : sizeBlock lp64 { s with twGuard := true } with _ | s2
      · rfl
      · have hf := sizeBlock_some_fields hsb
        have hg2 : s2.stdintGuard = false := by rw [hf.2.2.1]; exact hg
        have hu : s2.uint32_t_defs = s.uint32_t_defs := hf.2.2.2.1
        have hi : s2.int32_t_defs = s.int32_t_defs := hf.2.2.2.2
        show stdintBlock s2 = none
        unfold stdintBlock
        rw [if_neg (by simp [hg2])]
        rcases hbad with ⟨d, hd, hne⟩ | ⟨d, hd, hne⟩
        · rw [hu, addTypedef_none hd hne]
        · rw [hi, addTypedef_none hd hne]
          rcases ha : addTypedef s2.uint32_t_defs uint32Def with _ | u <;> rfl
  · intro hr
    obtain ⟨r1, r2⟩ := hr
    rcases Bool.eq_false_or_eq_true s.twGuard with htw | htw
    · exact ⟨s, ptw_of_guard htw⟩
    · rw [ptw_of_not_guard htw]
      have hsz_or : s.sizeTGuard = true ∨ (s.size_t_defs = [] ∧ s.ssize_t_defs = []) := by
        rcases Bool.eq_false_or_eq_true s.sizeTGuard with hg | hg
        · exact Or.inl hg
        · refine Or.inr ⟨?_, ?_⟩
          · by_contra hc
            rw [r1.mpr (Or.inl hc)] at hg
            cases hg
          · by_contra hc
            rw [r1.mpr (Or.inr hc)] at hg
            cases hg
      obtain ⟨s2, hsb⟩ :=
        @sizeBlock_total lp64 { s with twGuard := true } hsz_or
      rw [hsb]
      simp only []
      have hf := sizeBlock_some_fields hsb
      have hg2 : s2.stdintGuard = s.stdintGuard := hf.2.2.1
      have hu : s2.uint32_t_defs = s.uint32_t_defs := hf.2.2.2.1
      have hi : s2.int32_t_defs = s.int32_t_defs := hf.2.2.2.2
      apply stdintBlock_total
      rw [hg2, hu, hi]
      rcases Bool.eq_false_or_eq_true s.stdintGuard with hg | hg
      · exact Or.inl hg
      · refine Or.inr ⟨?_, ?_⟩
        · by_contra hc
          rw [r2.mpr (Or.inl hc)] at hg
          cases hg
        · by_contra hc
          rw [r2.mpr (Or.inr hc)] at hg
          cases hg

/-- Witness for `shim_error_iff_guard_mismatch`: with `size_t` already
defined as a 16-bit signed type and no guard macro set, processing the shim
is a redefinition error. -/
theorem shim_error_iff_guard_mismatch_witness :
    processTypesWorkaround true
      { twGuard := false, sizeTGuard := false, stdintGuard := false,
        size_t_defs := [{ width := 16, signed := true }],
        ssize_t_defs := [], uint32_t_defs := [], int32_t_defs := [] } = none :=
  (shim_error_iff_guard_mismatch true
    { twGuard := false, sizeTGuard := false, stdintGuard := false,
      size_t_defs := [{ width := 16, signed := true }],
      ssize_t_defs := [], uint32_t_defs := [], int32_t_defs := [] }).1
    rfl
    (Or.inl ⟨rfl, Or.inl ⟨{ width := 16, signed := true }, by decide, by decide⟩⟩)

theorem includeIf_cases {b : Bool} {f : PPState → Option PPState} {s t : PPState}
    (h : includeIf b f s = some t) :
    (b = true ∧ f s = some t) ∨ (b = false ∧ t = s) := by
  rcases Bool.eq_false_or_eq_true b with hb | hb
  · left
    unfold includeIf at h
    rw [if_pos (by simp [hb])] at h
    exact ⟨hb, h⟩
  · right
    unfold includeIf at h
    rw [if_neg (by simp [hb])] at h
    exact ⟨hb, (Option.some.inj h).symm⟩

theorem processStddef_of_guard {lp : Bool} {s : PPState} (hg : s.sizeTGuard = true) :
    processStddef lp s = some s := by
  simp [processStddef, hg]

theorem processStddef_some_fields {lp : Bool} {s t : PPState}
    (h : processStddef lp s = some t) :
    t.sizeTGuard = true ∧ t.twGuard = s.twGuard ∧ t.stdintGuard = s.stdintGuard ∧
    t.ssize_t_defs = s.ssize_t_defs ∧ t.uint32_t_defs = s.uint32_t_defs ∧
    t.int32_t_defs = s.int32_t_defs := by
  unfold processStddef at h
  rcases Bool.eq_false_or_eq_true s.sizeTGuard with hg | hg
  · rw [if_pos (by simp [hg])] at h
    cases Option.some.inj h
    exact ⟨hg, rfl, rfl, rfl, rfl, rfl⟩
  · rw [if_neg (by simp [hg])] at h
    rcases ha : addTypedef s.size_t_defs (sizeTDef lp) with _ | sz <;> rw [ha] at h
    · simp at h
    · cases Option.some.inj h
      exact ⟨rfl, rfl, rfl, rfl, rfl, rfl⟩

theorem processStdint_of_guard {s : PPState} (hg : s.stdintGuard = true) :
    processStdint s = some s := by
  simp [processStdint, hg]

theorem processStdint_some_fields {s t : PPState} (h : processStdint s = some t) :
    t.stdintGuard = true ∧ t.twGuard = s.twGuard ∧ t.sizeTGuard = s.sizeTGuard ∧
    t.size_t_defs = s.size_t_defs ∧ t.ssize_t_defs = s.ssize_t_defs := by
  unfold processStdint at h
  rcases Bool.eq_false_or_eq_true s.stdintGuard with hg | hg
  · rw [if_pos (by simp [hg])] at h
    cases Option.some.inj h
    exact ⟨hg, rfl, rfl, rfl, rfl⟩
  · rw [if_neg (by simp [hg])] at h
    rcases ha : addTypedef s.uint32_t_defs uint32Def with _ | u <;> rw [ha] at h
    · simp at h
    · rcases hb : addTypedef s.int32_t_defs int32Def with _ | i <;> rw [hb] at h
      · simp at h
      · cases Option.some.inj h
        exact ⟨rfl, rfl, rfl, rfl, rfl⟩

theorem processSysTypes_of_nonempty {lp : Bool} {s : PPState}
    (hne : s.ssize_t_defs ≠ []) : processSysTypes lp s = some s := by
  unfold processSysTypes
  rw [if_neg hne]

theorem processSysTypes_some_fields {lp : Bool} {s t : PPState}
    (h : processSysTypes lp s = some t) :
    t.ssize_t_defs ≠ [] ∧ t.twGuard = s.twGuard ∧ t.sizeTGuard = s.sizeTGuard ∧
    t.stdintGuard = s.stdintGuard ∧ t.size_t_defs = s.size_t_defs ∧
    t.uint32_t_defs = s.uint32_t_defs ∧ t.int32_t_defs = s.int32_t_defs := by
  unfold processSysTypes at h
  split at h
  · cases Option.some.inj h
    exact ⟨by simp, rfl, rfl, rfl, rfl, rfl, rfl⟩
  · cases Option.some.inj h
    next hne => exact ⟨hne, rfl, rfl, rfl, rfl, rfl, rfl⟩

theorem processBinderBindings_of {s : PPState}
    (h : s.size_t_defs ≠ [] ∧ s.ssize_t_defs ≠ [] ∧
         s.uint32_t_defs ≠ [] ∧ s.int32_t_defs ≠ []) :
    processBinderBindings s = some s := by
  unfold processBinderBindings
  rw [if_pos h]

theorem processBinderBindings_some {s t : PPState}
    (h : processBinderBindings s = some t) :
    t = s ∧ s.size_t_defs ≠ [] ∧ s.ssize_t_defs ≠ [] ∧
    s.uint32_t_defs ≠ [] ∧ s.int32_t_defs ≠ [] := by
  unfold processBinderBindings at h
  split at h
  · cases Option.some.inj h
    next hc => exact ⟨rfl, hc⟩
  · simp at h

theorem prelude_some_facts {hst : Host} {s t : PPState}
    (h : processWrapperPrelude hst s = some t) :
    (hst.hasStddef = true → t.sizeTGuard = true) ∧
    (hst.hasStdint = true → t.stdintGuard = true) ∧
    t.twGuard = s.twGuard := by
  unfold processWrapperPrelude at h
  rcases h1 : includeIf hst.hasStddef (processStddef hst.lp64) s with _ | a <;>
    rw [h1] at h
  · simp at h
  · simp only [] at h
    rcases h2 : includeIf hst.hasStdbool processStdbool a with _ | b2 <;> rw [h2] at h
    · simp at h
    · simp only [] at h
      rcases h3 : includeIf hst.hasStdint processStdint b2 with _ | c <;> rw [h3] at h
      · simp at h
      · simp only [] at h
        have fa : (hst.hasStddef = true → a.sizeTGuard = true) ∧
            a.stdintGuard = s.stdintGuard ∧ a.twGuard = s.twGuard := by
          rcases includeIf_cases h1 with ⟨hb, hf⟩ | ⟨hb, rfl⟩
          · have hf2 := processStddef_some_fields hf
            exact ⟨fun _ => hf2.1, hf2.2.2.1, hf2.2.1⟩
          · exact ⟨fun hcontra => absurd hcontra (by simp [hb]), rfl, rfl⟩
        have fb : b2 = a := by
          rcases includeIf_cases h2 with ⟨hb, hf⟩ | ⟨hb, rfl⟩
          · exact (Option.some.inj hf).symm
          · rfl
        subst fb
        have fc : (hst.hasStdint = true → c.stdintGuard = true) ∧
            c.sizeTGuard = b2.sizeTGuard ∧ c.twGuard = b2.twGuard := by
          rcases includeIf_cases h3 with ⟨hb, hf⟩ | ⟨hb, rfl⟩
          · have hf2 := processStdint_some_fields hf
            exact ⟨fun _ => hf2.1, hf2.2.2.1, hf2.2.1⟩
          · exact ⟨fun hcontra => absurd hcontra (by simp [hb]), rfl, rfl⟩
        have ft : t.sizeTGuard = c.sizeTGuard ∧ t.stdintGuard = c.stdintGuard ∧
            t.twGuard = c.twGuard := by
          rcases includeIf_cases h with ⟨hb, hf⟩ | ⟨hb, rfl⟩
          · have hf2 := processSysTypes_some_fields hf
            exact ⟨hf2.2.2.1, hf2.2.2.2.1, hf2.2.1⟩
          · exact ⟨rfl, rfl, rfl⟩
        refine ⟨fun hd => ?_, fun hi => ?_, ?_⟩
        · rw [ft.1, fc.2.1]
          exact fa.1 hd
        · rw [ft.2.1]
          exact fc.1 hi
        · rw [ft.2.2, fc.2.2, fa.2.2]

/-- Claim C2: whenever a first processing of wrapper.h succeeds, processing
wrapper.h a second time in the same translation unit from the resulting state
yields exactly that state and no duplicate-definition error: every definition
reached on the second pass is suppressed by the guard state the first pass
left behind. -/
theorem wrapper_second_inclusion_no_error (hst : Host) (s t : PPState)
    (h : processWrapper hst s = some t) : processWrapper hst t = some t := by
  unfold processWrapper at h ⊢
  rcases hp : processWrapperPrelude hst s with _ | p <;> rw [hp] at h
  · simp at h
  · simp only [] at h
    obtain ⟨hteq, hne1, hne2, hne3, hne4⟩ := processBinderBindings_some h
    subst hteq
    obtain ⟨f1, f2, _f3⟩ := prelude_some_facts hp
    have e1 : includeIf hst.hasStddef (processStddef hst.lp64) t = some t := by
      rcases Bool.eq_false_or_eq_true hst.hasStddef with hb | hb
      · unfold includeIf
        rw [if_pos (by simp [hb])]
        exact processStddef_of_guard (f1 hb)
      · unfold includeIf
        rw [if_neg (by simp [hb])]
    have e2 : includeIf hst.hasStdbool processStdbool t = some t := by
      rcases Bool.eq_false_or_eq_true hst.hasStdbool with hb | hb
      · unfold includeIf
        rw [if_pos (by simp [hb])]
        rfl
      · unfold includeIf
        rw [if_neg (by simp [hb])]
    have e3 : includeIf hst.hasStdint processStdint t = some t := by
      rcases Bool.eq_false_or_eq_true hst.hasStdint with hb | hb
      · unfold includeIf
        rw [if_pos (by simp [hb])]
        exact processStdint_of_guard (f2 hb)
      · unfold includeIf
        rw [if_neg (by simp [hb])]
    have e4 : includeIf hst.hasSysTypes (processSysTypes hst.lp64) t = some t := by
      rcases Bool.eq_false_or_eq_true hst.hasSysTypes with hb | hb
      · unfold includeIf
        rw [if_pos (by simp [hb])]
        exact processSysTypes_of_nonempty hne2
      · unfold includeIf
        rw [if_neg (by simp [hb])]
    have hpre : processWrapperPrelude hst t = some t := by
      unfold processWrapperPrelude
      rw [e1]
      simp only []
      rw [e2]
      simp only []
      rw [e3]
      simp only []
      exact e4
    rw [hpre]
    simp only []
    exact processBinderBindings_of ⟨hne1, hne2, hne3, hne4⟩

/-- Witness for `wrapper_second_inclusion_no_error`: the state left by a first
successful pass of wrapper.h on a fully equipped 64-bit host is a fixed point
of processing wrapper.h again. -/
theorem wrapper_second_inclusion_no_error_witness :
    processWrapper
      { hasStddef := true, hasStdbool := true, hasStdint := true,
        hasSysTypes := true, lp64 := true }
      { twGuard := false, sizeTGuard := true, stdintGuard := true,
        size_t_defs := [{ width := 64, signed := false }],
        ssize_t_defs := [{ width := 64, signed := true }],
        uint32_t_defs := [{ width := 32, signed := false }],
        int32_t_defs := [{ width := 32, signed := true }] } =
    some { twGuard := false, sizeTGuard := true, stdintGuard := true,
           size_t_defs := [{ width := 64, signed := false }],
           ssize_t_defs := [{ width := 64, signed := true }],
           uint32_t_defs := [{ width := 32, signed := false }],
           int32_t_defs := [{ width := 32, signed := true }] } :=
  wrapper_second_inclusion_no_error
    { hasStddef := true, hasStdbool := true, hasStdint := true,
      hasSysTypes := true, lp64 := true }
    initState _ (by decide)

/-- Claim C1: on a host providing none of the four standard headers,
processing the shim (injected by the build before wrapper.h) and then the
standard-header prelude of wrapper.h leaves a state in which all four
primitive type names the vendor header depends on are defined before
`BinderBindings.hpp` is processed, so the vendor header is processed without
error — the shim supplies the missing definitions. -/
theorem shim_fills_missing_std_headers (hst : Host)
    (h1 : hst.hasStddef = false) (h2 : hst.hasStdbool = false)
    (h3 : hst.hasStdint = false) (h4 : hst.hasSysTypes = false) :
    ∃ t, processTypesWorkaround hst.lp64 initState = some t ∧
      processWrapperPrelude hst t = some t ∧
      t.size_t_defs ≠ [] ∧ t.ssize_t_defs ≠ [] ∧
      t.uint32_t_defs ≠ [] ∧ t.int32_t_defs ≠ [] ∧
      processBinderBindings t = some t := by
  have ep : ∀ u : PPState, processWrapperPrelude hst u = some u := by
    intro u
    have e1 : includeIf hst.hasStddef (processStddef hst.lp64) u = some u := by
      unfold includeIf
      rw [if_neg (by simp [h1])]
    have e2 : includeIf hst.hasStdbool processStdbool u = some u := by
      unfold includeIf
      rw [if_neg (by simp [h2])]
    have e3 : includeIf hst.hasStdint processStdint u = some u := by
      unfold includeIf
      rw [if_neg (by simp [h3])]
    have e4 : includeIf hst.hasSysTypes (processSysTypes hst.lp64) u = some u := by
      unfold includeIf
      rw [if_neg (by simp [h4])]
    unfold processWrapperPrelude
    rw [e1]
    simp only []
    rw [e2]
    simp only []
    rw [e3]
    simp only []
    exact e4
  have hshim : processTypesWorkaround hst.lp64 initState =
      some { twGuard := true, sizeTGuard := true, stdintGuard := false,
             size_t_defs := [sizeTDef hst.lp64], ssize_t_defs := [ssizeTDef hst.lp64],
             uint32_t_defs := [uint32Def], int32_t_defs := [int32Def] } := by
    cases hst.lp64 <;> decide
  refine ⟨_, hshim, ep _, by simp, by simp, by simp, by simp, ?_⟩
  exact processBinderBindings_of ⟨by simp, by simp, by simp, by simp⟩

/-- Witness for `shim_fills_missing_std_headers` on a header-less 64-bit
host environment. -/
theorem shim_fills_missing_std_headers_witness :
    ∃ t, processTypesWorkaround
        (Host.mk false false false false true).lp64 initState = some t ∧
      processWrapperPrelude (Host.mk false false false false true) t = some t ∧
      t.size_t_defs ≠ [] ∧ t.ssize_t_defs ≠ [] ∧
      t.uint32_t_defs ≠ [] ∧ t.int32_t_defs ≠ [] ∧
      processBinderBindings t = some t :=
  shim_fills_missing_std_headers (Host.mk false false false false true)
    rfl rfl rfl rfl

/-- Claim C6: wrapper.h performs exactly these inclusions, in source order —
`stddef.h`, `stdbool.h`, `stdint.h`, `sys/types.h`, then `BinderBindings.hpp` —
so each of the four standard headers is included strictly before the vendor
native interface header. -/
theorem wrapper_include_order :
    wrapperIncludes.indexOf "stddef.h" < wrapperIncludes.indexOf "BinderBindings.hpp" ∧
    wrapperIncludes.indexOf "stdbool.h" < wrapperIncludes.indexOf "BinderBindings.hpp" ∧
    wrapperIncludes.indexOf "stdint.h" < wrapperIncludes.indexOf "BinderBindings.hpp" ∧
    wrapperIncludes.indexOf "sys/types.h" < wrapperIncludes.indexOf "BinderBindings.hpp" ∧
    wrapperIncludes =
      ["stddef.h", "stdbool.h", "stdint.h", "sys/types.h", "BinderBindings.hpp"] :=
  ⟨by decide, by decide, by decide, by decide, rfl⟩

/-- Claim C8: wrapper.h never includes types_workaround.h; processing
wrapper.h never defines the macro `TYPES_WORKAROUND_H`; and on a host with no
standard headers, processing wrapper.h alone from the empty state fails, so
the shim's definitions reach the translation unit only when an external
mechanism injects types_workaround.h first. -/
theorem wrapper_never_includes_shim :
    ("types_workaround.h" ∉ wrapperIncludes) ∧
    (∀ (hst : Host) (s t : PPState),
      processWrapper hst s = some t → t.twGuard = s.twGuard) ∧
    (∀ hst : Host, hst.hasStddef = false → hst.hasStdbool = false →
      hst.hasStdint = false → hst.hasSysTypes = false →
      processWrapper hst initState = none) := by
  refine ⟨by decide, ?_, ?_⟩
  · intro hst s t h
    unfold processWrapper at h
    rcases hp : processWrapperPrelude hst s with _ | p <;> rw [hp] at h
    · simp at h
    · simp only [] at h
      obtain ⟨hteq, _⟩ := processBinderBindings_some h
      subst hteq
      exact (prelude_some_facts hp).2.2
  · intro hst h1 h2 h3 h4
    have e1 : includeIf hst.hasStddef (processStddef hst.lp64) initState =
        some initState := by
      unfold includeIf
      rw [if_neg (by simp [h1])]
    have e2 : includeIf hst.hasStdbool processStdbool initState = some initState := by
      unfold includeIf
      rw [if_neg (by simp [h2])]
    have e3 : includeIf hst.hasStdint processStdint initState = some initState := by
      unfold includeIf
      rw [if_neg (by simp [h3])]
    have e4 : includeIf hst.hasSysTypes (processSysTypes hst.lp64) initState =
        some initState := by
      unfold includeIf
      rw [if_neg (by simp [h4])]
    unfold processWrapper processWrapperPrelude
    rw [e1]
    simp only []
    rw [e2]
    simp only []
    rw [e3]
    simp only []
    rw [e4]
    simp only []
    decide

/-- Witness for `wrapper_never_includes_shim`: wrapper.h alone on a
header-less host fails, and its include list omits the shim. -/
theorem wrapper_never_includes_shim_witness :
    processWrapper (Host.mk false false false false true) initState = none ∧
    ("types_workaround.h" ∉ wrapperIncludes) :=
  ⟨wrapper_never_includes_shim.2.2 (Host.mk false false false false true)
    rfl rfl rfl rfl,
   wrapper_never_includes_shim.1⟩
